import Mathlib

/-!
Verification of the connectivity checker in `src-tauri/src/connectivity.rs`
(with configuration constants from `src-tauri/src/constants.rs`).

The module under study performs a single bounded-time TCP connection
attempt (`check_connectivity_once`), wraps it in an exponential-backoff
retry loop (`check_connectivity`), and also exposes a single-attempt
quick path (`check_connectivity_quick`).

Shallow embedding: the nondeterministic network is modelled by an
environment `env : Nat → NetEvent` giving, for each attempt index
(0 = initial attempt, n = retry attempt n), the outcome of the race
between the TCP connect and the per-attempt timeout, and by
`dur : Nat → Nat` giving the wall-clock milliseconds that attempt spent
inside the probe.  The retry loop of the source is a `for attempt in
1..=max_retries` loop; it is embedded structurally with
`remaining = max_retries - attempt + 1` as the recursion measure.
-/

namespace Connectivity

/-- Outcome of the race `timeout(timeout_duration, TcpStream::connect(&addr))`
inside `check_connectivity_once`: the connection was established
(`Ok(Ok(_stream))`), the connect finished with a transport error
(`Ok(Err(e))`, the error description carried as a string), or the timeout
elapsed first (`Err(_)` of `tokio::time::timeout`). -/
inductive NetEvent where
  | connected : NetEvent
  | connError (detail : String) : NetEvent
  | timedOut : NetEvent
deriving DecidableEq, Repr

/-- The `ConnectivityError` enum of the source: `Io(std::io::Error)`
(the error's description carried as a string), `Timeout`, and
`MaxRetriesExceeded` (declared but, as claimed, never produced). -/
inductive ConnectivityError where
  | ioError (detail : String) : ConnectivityError
  | Timeout : ConnectivityError
  | MaxRetriesExceeded : ConnectivityError
deriving DecidableEq, Repr

/-- `ConnectivityResult = Result<bool, ConnectivityError>` of the source. -/
abbrev ConnectivityResult := Except ConnectivityError Bool

instance : DecidableEq ConnectivityResult
  | .ok a, .ok b =>
      if h : a = b then .isTrue (by rw [h]) else .isFalse (by simp [h])
  | .error a, .error b =>
      if h : a = b then .isTrue (by rw [h]) else .isFalse (by simp [h])
  | .ok _, .error _ => .isFalse (by simp)
  | .error _, .ok _ => .isFalse (by simp)

/-- Constant `CONNECTIVITY_TIMEOUT_SECS` from `constants.rs`. -/
def CONNECTIVITY_TIMEOUT_SECS : Nat := 2

/-- Constant `MAX_CONNECTIVITY_RETRIES` from `constants.rs`. -/
def MAX_CONNECTIVITY_RETRIES : Nat := 2

/-- Constant `RETRY_BASE_DELAY_MS` from `constants.rs`. -/
def RETRY_BASE_DELAY_MS : Nat := 500

/-- Embedding of `check_connectivity_once`: classify the network event of
this attempt.  `Ok(Ok(_stream)) => Ok(true)`, `Ok(Err(e)) =>
Err(ConnectivityError::Io(e))`, `Err(_) => Err(ConnectivityError::Timeout)`. -/
def check_connectivity_once (ev : NetEvent) : ConnectivityResult :=
  match ev with
  | .connected => .ok true
  | .connError e => .error (.ioError e)
  | .timedOut => .error .Timeout

/-- Observable trace of one `check_connectivity` call: the returned value
(`none` models the `unreachable!` panic branches; `some r` a normal
return of `r`), the number of probe invocations, the list of backoff
delays slept (ms, in order), and the total elapsed wall-clock ms
(probe durations plus backoff sleeps). -/
structure RunResult where
  result : Option ConnectivityResult
  probes : Nat
  delays : List Nat
  elapsed : Nat
deriving DecidableEq, Repr

/-- Embedding of the `for attempt in 1..=max_retries` retry loop of
`check_connectivity`.  `attempt` is the current retry number (starting
at 1), `remaining = max_retries - attempt + 1` is the number of loop
iterations left; `probes`, `delays`, `elapsed` accumulate the trace so
far.  Each iteration computes `delay_ms = base_delay_ms * (1 <<
(attempt - 1))` (equal to `base * 2 ^ (attempt - 1)`; with the
program's constants the shift cannot overflow `u64`), sleeps it, probes
once, and matches: `Ok(true)` returns `Ok(true)`, `Ok(false)` hits
`unreachable!` (modelled as result `none`), and both `Err(Timeout)`
and the catch-all `Err(e)` arm `continue` to the next iteration.
After the loop the function returns `Ok(false)`. -/
def retryFrom (env : Nat → NetEvent) (dur : Nat → Nat) (base : Nat) :
    Nat → Nat → Nat → List Nat → Nat → RunResult
  | _attempt, 0, probes, delays, elapsed =>
      ⟨some (.ok false), probes, delays, elapsed⟩
  | attempt, remaining + 1, probes, delays, elapsed =>
      let d := base * 2 ^ (attempt - 1)
      match check_connectivity_once (env attempt) with
      | .ok true =>
          ⟨some (.ok true), probes + 1, delays ++ [d], elapsed + d + dur attempt⟩
      | .ok false =>
          ⟨none, probes + 1, delays ++ [d], elapsed + d + dur attempt⟩
      | .error _ =>
          retryFrom env dur base (attempt + 1) remaining (probes + 1)
            (delays ++ [d]) (elapsed + d + dur attempt)

/-- Embedding of `check_connectivity`, parameterized by the retry policy
(the source reads `max_retries` and `base_delay_ms` from the constants
module at the top of the function).  The first attempt (index 0) runs
with no delay; `Ok(true)` returns immediately, `Ok(false)` hits
`unreachable!`, and both error arms fall through to the retry loop. -/
def check_connectivity_run (env : Nat → NetEvent) (dur : Nat → Nat)
    (max_retries base : Nat) : RunResult :=
  match check_connectivity_once (env 0) with
  | .ok true => ⟨some (.ok true), 1, [], dur 0⟩
  | .ok false => ⟨none, 1, [], dur 0⟩
  | .error _ => retryFrom env dur base 1 max_retries 1 [] (dur 0)

/-- Embedding of `check_connectivity` at the program's actual
configuration `MAX_CONNECTIVITY_RETRIES`, `RETRY_BASE_DELAY_MS`. -/
def check_connectivity (env : Nat → NetEvent) (dur : Nat → Nat) : RunResult :=
  check_connectivity_run env dur MAX_CONNECTIVITY_RETRIES RETRY_BASE_DELAY_MS

/-- Embedding of `check_connectivity_quick`: one probe, whose boolean
payload is passed through `Result::map` with a closure that only logs
and returns `connected` unchanged. -/
def check_connectivity_quick (ev : NetEvent) : ConnectivityResult :=
  (check_connectivity_once ev).map (fun connected => connected)

/-- A network event that is not a successful connection (either failure
kind); used to state exhaustion claims. -/
def NetEvent.isFailure : NetEvent → Prop
  | .connected => False
  | .connError _ => True
  | .timedOut => True

instance (ev : NetEvent) : Decidable ev.isFailure := by
  cases ev <;> simp [NetEvent.isFailure] <;> infer_instance

/-! Helper lemmas about the retry loop, by induction on the number of
remaining iterations.  The loop is always entered with `attempt = a + 1`
for some `a` (the source loop counts attempts from 1), which keeps the
`attempt - 1` in the delay exponent subtraction-free. -/

theorem retryFrom_result_ok (env : Nat → NetEvent) (dur : Nat → Nat) (base : Nat) :
    ∀ remaining attempt probes delays elapsed,
      ∃ r : Bool,
        (retryFrom env dur base attempt remaining probes delays elapsed).result =
          some (.ok r) := by
  intro remaining
  induction remaining with
  | zero => intro attempt probes delays elapsed; exact ⟨false, rfl⟩
  | succ r ih =>
      intro attempt probes delays elapsed
      cases hev : env attempt with
      | connected =>
          exact ⟨true, by simp [retryFrom, check_connectivity_once, hev]⟩
      | connError d =>
          obtain ⟨r0, hr0⟩ := ih (attempt + 1) (probes + 1)
            (delays ++ [base * 2 ^ (attempt - 1)])
            (elapsed + base * 2 ^ (attempt - 1) + dur attempt)
          exact ⟨r0, by simp [retryFrom, check_connectivity_once, hev, hr0]⟩
      | timedOut =>
          obtain ⟨r0, hr0⟩ := ih (attempt + 1) (probes + 1)
            (delays ++ [base * 2 ^ (attempt - 1)])
            (elapsed + base * 2 ^ (attempt - 1) + dur attempt)
          exact ⟨r0, by simp [retryFrom, check_connectivity_once, hev, hr0]⟩

theorem retryFrom_allfail (env : Nat → NetEvent) (dur : Nat → Nat) (base : Nat) :
    ∀ remaining a probes delays elapsed,
      (∀ i, i ≤ a + remaining → (env i).isFailure) →
      (retryFrom env dur base (a + 1) remaining probes delays elapsed).result =
        some (.ok false) := by
  intro remaining
  induction remaining with
  | zero => intro a probes delays elapsed _; rfl
  | succ r ih =>
      intro a probes delays elapsed hfail
      have hcur : (env (a + 1)).isFailure := hfail (a + 1) (by omega)
      cases hev : env (a + 1) with
      | connected => rw [hev] at hcur; exact absurd hcur (by simp [NetEvent.isFailure])
      | connError d =>
          have := ih (a + 1) (probes + 1)
            (delays ++ [base * 2 ^ (a + 1 - 1)])
            (elapsed + base * 2 ^ (a + 1 - 1) + dur (a + 1))
            (fun i hi => hfail i (by omega))
          simpa [retryFrom, check_connectivity_once, hev] using this
      | timedOut =>
          have := ih (a + 1) (probes + 1)
            (delays ++ [base * 2 ^ (a + 1 - 1)])
            (elapsed + base * 2 ^ (a + 1 - 1) + dur (a + 1))
            (fun i hi => hfail i (by omega))
          simpa [retryFrom, check_connectivity_once, hev] using this

theorem retryFrom_probes_le (env : Nat → NetEvent) (dur : Nat → Nat) (base : Nat) :
    ∀ remaining attempt probes delays elapsed,
      (retryFrom env dur base attempt remaining probes delays elapsed).probes ≤
        probes + remaining := by
  intro remaining
  induction remaining with
  | zero => intro attempt probes delays elapsed; simp [retryFrom]
  | succ r ih =>
      intro attempt probes delays elapsed
      cases hev : env attempt with
      | connected => simp [retryFrom, check_connectivity_once, hev]
      | connError d =>
          have := ih (attempt + 1) (probes + 1)
            (delays ++ [base * 2 ^ (attempt - 1)])
            (elapsed + base * 2 ^ (attempt - 1) + dur attempt)
          simp only [retryFrom, check_connectivity_once, hev]
          omega
      | timedOut =>
          have := ih (attempt + 1) (probes + 1)
            (delays ++ [base * 2 ^ (attempt - 1)])
            (elapsed + base * 2 ^ (attempt - 1) + dur attempt)
          simp only [retryFrom, check_connectivity_once, hev]
          omega

theorem retryFrom_delays_schedule (env : Nat → NetEvent) (dur : Nat → Nat) (base : Nat) :
    ∀ remaining a probes delays elapsed,
      ∃ m, m ≤ remaining ∧
        (retryFrom env dur base (a + 1) remaining probes delays elapsed).delays =
          delays ++ (List.range m).map (fun k => base * 2 ^ (a + k)) := by
  intro remaining
  induction remaining with
  | zero => intro a p dl el; exact ⟨0, Nat.le_refl 0, by simp [retryFrom]⟩
  | succ r ih =>
      intro a p dl el
      have hmm : ∀ m', List.map ((fun k => base * 2 ^ (a + k)) ∘ Nat.succ) (List.range m') =
          List.map (fun k => base * 2 ^ (a + 1 + k)) (List.range m') := by
        intro m'
        refine List.map_congr_left fun k _ => ?_
        simp only [Function.comp_apply]
        rw [Nat.succ_eq_add_one, show a + (k + 1) = a + 1 + k from by omega]
      cases hev : env (a + 1) with
      | connected =>
          refine ⟨1, by omega, ?_⟩
          simp only [retryFrom, check_connectivity_once, hev]
          rw [show List.range 1 = [0] from rfl]
          simp
      | connError d =>
          obtain ⟨m, hm, hdl⟩ := ih (a + 1) (p + 1)
            (dl ++ [base * 2 ^ (a + 1 - 1)])
            (el + base * 2 ^ (a + 1 - 1) + dur (a + 1))
          refine ⟨m + 1, by omega, ?_⟩
          simp only [retryFrom, check_connectivity_once, hev]
          rw [hdl, List.range_succ_eq_map, List.map_cons, List.map_map, hmm m]
          simp [List.append_assoc]
      | timedOut =>
          obtain ⟨m, hm, hdl⟩ := ih (a + 1) (p + 1)
            (dl ++ [base * 2 ^ (a + 1 - 1)])
            (el + base * 2 ^ (a + 1 - 1) + dur (a + 1))
          refine ⟨m + 1, by omega, ?_⟩
          simp only [retryFrom, check_connectivity_once, hev]
          rw [hdl, List.range_succ_eq_map, List.map_cons, List.map_map, hmm m]
          simp [List.append_assoc]

theorem retryFrom_elapsed_le (env : Nat → NetEvent) (dur : Nat → Nat) (base T : Nat)
    (hdur : ∀ i, dur i ≤ T) :
    ∀ remaining a probes delays elapsed,
      (retryFrom env dur base (a + 1) remaining probes delays elapsed).elapsed ≤
        elapsed + remaining * T + ∑ j in Finset.range remaining, base * 2 ^ (a + j) := by
  intro remaining
  induction remaining with
  | zero => intro a p dl el; simp [retryFrom]
  | succ r ih =>
      intro a p dl el
      have hsum : ∑ j in Finset.range (r + 1), base * 2 ^ (a + j) =
          (∑ j in Finset.range r, base * 2 ^ (a + 1 + j)) + base * 2 ^ a := by
        rw [Finset.sum_range_succ']
        have h1 : ∑ j in Finset.range r, base * 2 ^ (a + (j + 1)) =
            ∑ j in Finset.range r, base * 2 ^ (a + 1 + j) :=
          Finset.sum_congr rfl fun j _ => by
            rw [show a + (j + 1) = a + 1 + j from by omega]
        rw [h1]
        simp
      have hD := hdur (a + 1)
      cases hev : env (a + 1) with
      | connected =>
          simp only [retryFrom, check_connectivity_once, hev, Nat.add_sub_cancel]
          rw [hsum, Nat.succ_mul]
          omega
      | connError d =>
          have hrec := ih (a + 1) (p + 1)
            (dl ++ [base * 2 ^ (a + 1 - 1)])
            (el + base * 2 ^ (a + 1 - 1) + dur (a + 1))
          simp only [Nat.add_sub_cancel] at hrec
          simp only [retryFrom, check_connectivity_once, hev, Nat.add_sub_cancel]
          rw [hsum, Nat.succ_mul]
          omega
      | timedOut =>
          have hrec := ih (a + 1) (p + 1)
            (dl ++ [base * 2 ^ (a + 1 - 1)])
            (el + base * 2 ^ (a + 1 - 1) + dur (a + 1))
          simp only [Nat.add_sub_cancel] at hrec
          simp only [retryFrom, check_connectivity_once, hev, Nat.add_sub_cancel]
          rw [hsum, Nat.succ_mul]
          omega

theorem retryFrom_congr_env (env1 env2 : Nat → NetEvent) (dur : Nat → Nat) (base : Nat)
    (henv : ∀ i, env1 i = NetEvent.connected ↔ env2 i = NetEvent.connected) :
    ∀ remaining attempt probes delays elapsed,
      retryFrom env1 dur base attempt remaining probes delays elapsed =
        retryFrom env2 dur base attempt remaining probes delays elapsed := by
  intro remaining
  induction remaining with
  | zero => intro attempt p dl el; rfl
  | succ r ih =>
      intro attempt p dl el
      cases hev1 : env1 attempt with
      | connected =>
          have hev2 : env2 attempt = .connected := (henv attempt).mp hev1
          simp [retryFrom, check_connectivity_once, hev1, hev2]
      | connError d =>
          cases hev2 : env2 attempt with
          | connected =>
              have h := (henv attempt).mpr hev2
              rw [hev1] at h; exact absurd h (by simp)
          | connError d2 =>
              simp only [retryFrom, check_connectivity_once, hev1, hev2]
              exact ih (attempt + 1) (p + 1) _ _
          | timedOut =>
              simp only [retryFrom, check_connectivity_once, hev1, hev2]
              exact ih (attempt + 1) (p + 1) _ _
      | timedOut =>
          cases hev2 : env2 attempt with
          | connected =>
              have h := (henv attempt).mpr hev2
              rw [hev1] at h; exact absurd h (by simp)
          | connError d2 =>
              simp only [retryFrom, check_connectivity_once, hev1, hev2]
              exact ih (attempt + 1) (p + 1) _ _
          | timedOut =>
              simp only [retryFrom, check_connectivity_once, hev1, hev2]
              exact ih (attempt + 1) (p + 1) _ _

/-! Lemmas about a whole `check_connectivity` call, lifting the loop
lemmas through the initial attempt. -/

theorem check_connectivity_run_result_ok (env : Nat → NetEvent) (dur : Nat → Nat)
    (N b : Nat) :
    ∃ r : Bool, (check_connectivity_run env dur N b).result = some (.ok r) := by
  cases hev : env 0 with
  | connected =>
      exact ⟨true, by simp [check_connectivity_run, check_connectivity_once, hev]⟩
  | connError d =>
      obtain ⟨r, hr⟩ := retryFrom_result_ok env dur b N 1 1 [] (dur 0)
      exact ⟨r, by simp [check_connectivity_run, check_connectivity_once, hev, hr]⟩
  | timedOut =>
      obtain ⟨r, hr⟩ := retryFrom_result_ok env dur b N 1 1 [] (dur 0)
      exact ⟨r, by simp [check_connectivity_run, check_connectivity_once, hev, hr]⟩

theorem check_connectivity_run_elapsed_le (env : Nat → NetEvent) (dur : Nat → Nat)
    (N b T : Nat) (hdur : ∀ i, dur i ≤ T) :
    (check_connectivity_run env dur N b).elapsed ≤
      (N + 1) * T + ∑ k in Finset.range N, b * 2 ^ k := by
  have hd0 := hdur 0
  cases hev : env 0 with
  | connected =>
      simp only [check_connectivity_run, check_connectivity_once, hev]
      rw [Nat.add_mul, Nat.one_mul]
      omega
  | connError d =>
      have hrec := retryFrom_elapsed_le env dur b T hdur N 0 1 [] (dur 0)
      simp only [Nat.zero_add] at hrec
      simp only [check_connectivity_run, check_connectivity_once, hev]
      rw [Nat.add_mul, Nat.one_mul]
      omega
  | timedOut =>
      have hrec := retryFrom_elapsed_le env dur b T hdur N 0 1 [] (dur 0)
      simp only [Nat.zero_add] at hrec
      simp only [check_connectivity_run, check_connectivity_once, hev]
      rw [Nat.add_mul, Nat.one_mul]
      omega

theorem getD_map_range (f : Nat → Nat) (m i : Nat) (h : i < m) :
    (List.map f (List.range m)).getD i 0 = f i := by
  rw [List.getD_eq_getElem?_getD, List.getElem?_map, List.getElem?_range h]
  rfl

/-! The claims. -/

/-- C1: `check_connectivity_once` returns `Ok(true)`, `Err(Io(_))` or
`Err(Timeout)` and never `Ok(false)`; consequently the assertion-guarded
`Ok(false)` branches inside `check_connectivity` (the `unreachable!`
calls, modelled as result `none`) are never executed: every run has a
present result. -/
theorem C1_prober_never_false (ev : NetEvent) (env : Nat → NetEvent)
    (dur : Nat → Nat) (N b : Nat) :
    (check_connectivity_once ev = .ok true ∨
      (∃ d, check_connectivity_once ev = .error (.ioError d)) ∨
      check_connectivity_once ev = .error .Timeout) ∧
    ((check_connectivity_run env dur N b).result).isSome = true := by
  constructor
  · cases ev with
    | connected => exact .inl rfl
    | connError d => exact .inr (.inl ⟨d, rfl⟩)
    | timedOut => exact .inr (.inr rfl)
  · obtain ⟨r, hr⟩ := check_connectivity_run_result_ok env dur N b
    rw [hr]
    rfl

/-- C2: for every sequence of probe outcomes, `check_connectivity`
returns `Ok(true)` or `Ok(false)` and never `Err`; and if all
`max_retries + 1` attempts fail (any mix of I/O error and timeout), it
returns `Ok(false)`. -/
theorem C2_exhaustion_returns_ok_false (env : Nat → NetEvent) (dur : Nat → Nat)
    (N b : Nat) :
    (∃ r : Bool, (check_connectivity_run env dur N b).result = some (.ok r)) ∧
    ((∀ i, i ≤ N → (env i).isFailure) →
      (check_connectivity_run env dur N b).result = some (.ok false)) := by
  refine ⟨check_connectivity_run_result_ok env dur N b, fun hfail => ?_⟩
  have h0 : (env 0).isFailure := hfail 0 (Nat.zero_le N)
  cases hev : env 0 with
  | connected =>
      rw [hev] at h0
      exact absurd h0 (by simp [NetEvent.isFailure])
  | connError d =>
      have h := retryFrom_allfail env dur b N 0 1 [] (dur 0)
        (fun i hi => hfail i (by omega))
      simp only [Nat.zero_add] at h
      simpa [check_connectivity_run, check_connectivity_once, hev] using h
  | timedOut =>
      have h := retryFrom_allfail env dur b N 0 1 [] (dur 0)
        (fun i hi => hfail i (by omega))
      simp only [Nat.zero_add] at h
      simpa [check_connectivity_run, check_connectivity_once, hev] using h

theorem C2_witness :
    (check_connectivity_run (fun _ => NetEvent.timedOut) (fun _ => 0) 2 500).result =
      some (.ok false) :=
  (C2_exhaustion_returns_ok_false (fun _ => NetEvent.timedOut) (fun _ => 0) 2 500).2
    (fun _ _ => True.intro)

/-- C3: when the single probe of `check_connectivity_quick` fails with
kind `IoError` or `Timeout`, the call returns `Err` carrying exactly
that kind; and the quick check only ever returns `Ok(true)`,
`Err(Io(_))`, or `Err(Timeout)` — never `Ok(false)`. -/
theorem C3_quick_surfaces_failure_kind :
    (∀ d, check_connectivity_quick (.connError d) = .error (.ioError d)) ∧
    check_connectivity_quick .timedOut = .error .Timeout ∧
    (∀ ev, check_connectivity_quick ev = .ok true ∨
      (∃ d, check_connectivity_quick ev = .error (.ioError d)) ∨
      check_connectivity_quick ev = .error .Timeout) := by
  refine ⟨fun d => rfl, rfl, fun ev => ?_⟩
  cases ev with
  | connected => exact .inl rfl
  | connError d => exact .inr (.inl ⟨d, rfl⟩)
  | timedOut => exact .inr (.inr rfl)

/-- C4: if the first probe attempt succeeds, `check_connectivity`
returns `Ok(true)` after exactly one probe invocation, with an empty
backoff-delay list and elapsed time just that one probe's duration,
regardless of the remaining retry budget. -/
theorem C4_short_circuit_on_first_success (env : Nat → NetEvent) (dur : Nat → Nat)
    (N b : Nat) (h : env 0 = NetEvent.connected) :
    check_connectivity_run env dur N b = ⟨some (.ok true), 1, [], dur 0⟩ := by
  simp [check_connectivity_run, check_connectivity_once, h]

theorem C4_witness :
    check_connectivity_run (fun _ => NetEvent.connected) (fun _ => 7) 9 500 =
      ⟨some (.ok true), 1, [], 7⟩ :=
  C4_short_circuit_on_first_success (fun _ => NetEvent.connected) (fun _ => 7) 9 500 rfl

/-- C5: for every sequence of probe outcomes and `max_retries = N`,
`check_connectivity` invokes the prober at most `N + 1` times. -/
theorem C5_bounded_attempts (env : Nat → NetEvent) (dur : Nat → Nat) (N b : Nat) :
    (check_connectivity_run env dur N b).probes ≤ N + 1 := by
  cases hev : env 0 with
  | connected =>
      simp [check_connectivity_run, check_connectivity_once, hev]
  | connError d =>
      have h := retryFrom_probes_le env dur b N 1 1 [] (dur 0)
      simp only [check_connectivity_run, check_connectivity_once, hev]
      omega
  | timedOut =>
      have h := retryFrom_probes_le env dur b N 1 1 [] (dur 0)
      simp only [check_connectivity_run, check_connectivity_once, hev]
      omega

/-- C6: the delay slept strictly before retry attempt `n`
(`1 ≤ n ≤ max_retries`, the `n`-th entry of the delay trace when that
retry happens) equals `base_delay * 2 ^ (n - 1)`; with `base_delay =
500` the schedule is 500 ms, 1000 ms, 2000 ms. -/
theorem C6_backoff_schedule (env : Nat → NetEvent) (dur : Nat → Nat)
    (N b n : Nat) (_h1 : 1 ≤ n)
    (h2 : n - 1 < (check_connectivity_run env dur N b).delays.length) :
    (check_connectivity_run env dur N b).delays.getD (n - 1) 0 = b * 2 ^ (n - 1) ∧
    (check_connectivity_run (fun _ => NetEvent.timedOut) (fun _ => 0) 3 500).delays =
      [500, 1000, 2000] := by
  refine ⟨?_, by decide⟩
  cases hev : env 0 with
  | connected =>
      rw [show check_connectivity_run env dur N b = ⟨some (.ok true), 1, [], dur 0⟩
        from by simp [check_connectivity_run, check_connectivity_once, hev]] at h2
      simp at h2
  | connError d =>
      obtain ⟨m, hm, hdl⟩ := retryFrom_delays_schedule env dur b N 0 1 [] (dur 0)
      simp only [Nat.zero_add, Nat.zero_add, List.nil_append] at hdl
      have hrun : check_connectivity_run env dur N b =
          retryFrom env dur b 1 N 1 [] (dur 0) := by
        simp [check_connectivity_run, check_connectivity_once, hev]
      rw [hrun] at h2 ⊢
      rw [hdl] at h2 ⊢
      rw [List.length_map, List.length_range] at h2
      exact getD_map_range _ m (n - 1) h2
  | timedOut =>
      obtain ⟨m, hm, hdl⟩ := retryFrom_delays_schedule env dur b N 0 1 [] (dur 0)
      simp only [Nat.zero_add, Nat.zero_add, List.nil_append] at hdl
      have hrun : check_connectivity_run env dur N b =
          retryFrom env dur b 1 N 1 [] (dur 0) := by
        simp [check_connectivity_run, check_connectivity_once, hev]
      rw [hrun] at h2 ⊢
      rw [hdl] at h2 ⊢
      rw [List.length_map, List.length_range] at h2
      exact getD_map_range _ m (n - 1) h2

theorem C6_witness :
    (check_connectivity_run (fun _ => NetEvent.timedOut) (fun _ => 0) 2 500).delays.getD 0 0 =
      500 * 2 ^ 0 :=
  (C6_backoff_schedule (fun _ => NetEvent.timedOut) (fun _ => 0) 2 500 1
    (Nat.le_refl 1) (by decide)).1

/-- C7: `check_connectivity_quick` returns exactly the outcome of one
`check_connectivity_once` invocation: for the same probe outcome the
two functions yield the same `Ok`/`Err` value (the quick path's
`Result::map` closure only logs and passes the boolean through). -/
theorem C7_quick_equals_once (ev : NetEvent) :
    check_connectivity_quick ev = check_connectivity_once ev := by
  cases ev <;> rfl

/-- C8: two probe-outcome sequences that agree on which attempts
succeed, differing only in the failure kind (or error detail) at
failing attempts, give identical `check_connectivity` traces: same
result, same number of probes, same backoff delays, same elapsed
time. -/
theorem C8_failure_kind_noninterference (env1 env2 : Nat → NetEvent)
    (dur : Nat → Nat) (N b : Nat)
    (henv : ∀ i, env1 i = NetEvent.connected ↔ env2 i = NetEvent.connected) :
    check_connectivity_run env1 dur N b = check_connectivity_run env2 dur N b := by
  cases hev1 : env1 0 with
  | connected =>
      have hev2 : env2 0 = NetEvent.connected := (henv 0).mp hev1
      simp [check_connectivity_run, check_connectivity_once, hev1, hev2]
  | connError d =>
      cases hev2 : env2 0 with
      | connected =>
          have h := (henv 0).mpr hev2
          rw [hev1] at h
          exact absurd h (by simp)
      | connError d2 =>
          simp only [check_connectivity_run, check_connectivity_once, hev1, hev2]
          exact retryFrom_congr_env env1 env2 dur b henv N 1 1 [] (dur 0)
      | timedOut =>
          simp only [check_connectivity_run, check_connectivity_once, hev1, hev2]
          exact retryFrom_congr_env env1 env2 dur b henv N 1 1 [] (dur 0)
  | timedOut =>
      cases hev2 : env2 0 with
      | connected =>
          have h := (henv 0).mpr hev2
          rw [hev1] at h
          exact absurd h (by simp)
      | connError d2 =>
          simp only [check_connectivity_run, check_connectivity_once, hev1, hev2]
          exact retryFrom_congr_env env1 env2 dur b henv N 1 1 [] (dur 0)
      | timedOut =>
          simp only [check_connectivity_run, check_connectivity_once, hev1, hev2]
          exact retryFrom_congr_env env1 env2 dur b henv N 1 1 [] (dur 0)

theorem C8_witness :
    check_connectivity_run (fun _ => NetEvent.timedOut) (fun _ => 0) 2 500 =
      check_connectivity_run (fun _ => NetEvent.connError "refused") (fun _ => 0) 2 500 :=
  C8_failure_kind_noninterference (fun _ => NetEvent.timedOut)
    (fun _ => NetEvent.connError "refused") (fun _ => 0) 2 500 (fun _ => by simp)

/-- C9: with every probe duration bounded by the attempt timeout `T`,
the total elapsed time of `check_connectivity` is at most
`(max_retries + 1) * T` plus the sum of the backoff delays
`base * 2 ^ (n - 1)` for `n = 1 .. max_retries`; at the default
configuration (timeout 2 s, base delay 500 ms, 2 retries) the bound is
7500 ms. -/
theorem C9_elapsed_bounded (env : Nat → NetEvent) (dur : Nat → Nat)
    (N b T : Nat) (hdur : ∀ i, dur i ≤ T) :
    (check_connectivity_run env dur N b).elapsed ≤
      (N + 1) * T + ∑ k in Finset.range N, b * 2 ^ k ∧
    ((∀ i, dur i ≤ CONNECTIVITY_TIMEOUT_SECS * 1000) →
      (check_connectivity env dur).elapsed ≤ 7500) := by
  refine ⟨check_connectivity_run_elapsed_le env dur N b T hdur, fun hdur2 => ?_⟩
  have h := check_connectivity_run_elapsed_le env dur 2 500 2000 hdur2
  have hsum : (2 + 1) * 2000 + ∑ k in Finset.range 2, 500 * 2 ^ k = 7500 := by decide
  rw [hsum] at h
  exact h

theorem C9_witness :
    (check_connectivity_run (fun _ => NetEvent.timedOut) (fun _ => 2000) 2 500).elapsed ≤
      (2 + 1) * 2000 + ∑ k in Finset.range 2, 500 * 2 ^ k :=
  (C9_elapsed_bounded (fun _ => NetEvent.timedOut) (fun _ => 2000) 2 500 2000
    (fun _ => Nat.le_refl 2000)).1

/-- C10: no operation ever produces the declared-but-unused error
variant `MaxRetriesExceeded`: not `check_connectivity_once`, not
`check_connectivity_quick`, and not `check_connectivity` (for any probe
outcome sequence). -/
theorem C10_max_retries_exceeded_unused (env : Nat → NetEvent) (dur : Nat → Nat)
    (N b : Nat) (ev : NetEvent) :
    check_connectivity_once ev ≠ .error .MaxRetriesExceeded ∧
    check_connectivity_quick ev ≠ .error .MaxRetriesExceeded ∧
    (check_connectivity_run env dur N b).result ≠
      some (.error .MaxRetriesExceeded) := by
  refine ⟨?_, ?_, ?_⟩
  · cases ev <;> simp [check_connectivity_once]
  · cases ev <;> simp [check_connectivity_quick, check_connectivity_once, Except.map]
  · obtain ⟨r, hr⟩ := check_connectivity_run_result_ok env dur N b
    rw [hr]
    simp

theorem C10_witness :
    (check_connectivity_run (fun _ => NetEvent.connError "down") (fun _ => 0) 1 500).result ≠
      some (.error .MaxRetriesExceeded) :=
  (C10_max_retries_exceeded_unused (fun _ => NetEvent.connError "down") (fun _ => 0)
    1 500 NetEvent.timedOut).2.2

end Connectivity
